import Mathlib

/-!
# Verification of the langchain-rdf document loaders

The repository ships two document loaders, `OntologyLoader` and
`SparqlExamplesLoader`, that turn RDF data sources into `(content, metadata)`
documents for a retrieval pipeline.  The repository snapshot available here
contains the packaging metadata, the READMEs and the `rag_sparql` notebook
(whose cell outputs record concrete documents produced by
`SparqlExamplesLoader`), but not the loader modules themselves; the loaders
are therefore modelled from the specification, with the notebook's recorded
output fixing the concrete metadata shape where the two could disagree
(metadata keys `comment`/`query`/`endpoint_url`/`query_type`/`_id`, the value
`SelectQuery` for `query_type`, and `comment` equal to the page content).
-/

namespace LangchainRdf

/-- Modelled from the spec: the sole output entity of both loaders — a text
body together with an ordered mapping of string metadata keys to string
values (spec section 3 "Document"). -/
structure Document where
  page_content : String
  metadata : List (String × String)
deriving DecidableEq, Repr

/-! ## A miniature model of the external SPARQL query parser

The spec delegates SPARQL parsing to an external RDF library and only relies
on the parse to classify a query as one of the four query forms.  We model
the parser at exactly that granularity: skip leading comment tokens and
`PREFIX`/`BASE` declarations, then read the query-form keyword. -/

/-- The four SPARQL query forms the spec names (SELECT/ASK/CONSTRUCT/DESCRIBE). -/
inductive QueryType where
  | select
  | ask
  | construct
  | describe
deriving DecidableEq, Repr

/-- Uppercase a token character by character (ASCII). -/
def upperToken (w : String) : String :=
  String.mk (w.data.map Char.toUpper)

/-- Recognise a query-form keyword, case-insensitively. -/
def keywordForm (w : String) : Option QueryType :=
  let u := upperToken w
  if u = "SELECT" then some QueryType.select
  else if u = "ASK" then some QueryType.ask
  else if u = "CONSTRUCT" then some QueryType.construct
  else if u = "DESCRIBE" then some QueryType.describe
  else none

/-- Split a string into whitespace-separated tokens (structural recursion on
the character list, so that concrete queries evaluate inside the kernel). -/
def tokenizeAux : List Char → List Char → List String
  | [], acc => if acc.isEmpty then [] else [String.mk acc.reverse]
  | c :: cs, acc =>
    if c.isWhitespace then
      if acc.isEmpty then tokenizeAux cs []
      else String.mk acc.reverse :: tokenizeAux cs []
    else tokenizeAux cs (c :: acc)

/-- All whitespace-separated tokens of a string. -/
def tokenize (s : String) : List String :=
  tokenizeAux s.data []

/-- Scan the token list for the query-form keyword, skipping comment tokens
and `PREFIX`/`BASE` declarations; the fuel bounds the number of scan steps
(each step consumes at least one token, so `tokens.length` is enough). -/
def scanTokensAux : Nat → List String → Option QueryType
  | _, [] => none
  | 0, _ => none
  | Nat.succ n, w :: ws =>
    match keywordForm w with
    | some qt => some qt
    | none =>
      if upperToken w = "PREFIX" then scanTokensAux n (ws.drop 2)
      else if upperToken w = "BASE" then scanTokensAux n (ws.drop 1)
      else
        match w.data with
        | '#' :: _ => scanTokensAux n ws
        | _ => none

/-- The query form an external SPARQL parser would assign to the text, or
`none` when the text does not parse as a query. -/
def queryForm (s : String) : Option QueryType :=
  scanTokensAux (tokenize s).length (tokenize s)

/-! ## OntologyLoader -/

/-- Modelled from the spec: immutable per-instance configuration of
`OntologyLoader` — source location and serialization format (spec sections 3
and 6). -/
structure OntologyLoader where
  source : String
  format : String := "xml"
deriving DecidableEq, Repr

/-- Modelled from the spec: an OWL class as the loader sees it after the
graph parse — its IRI, an optional explicit label, and declared
superclasses (spec section 4.1 step 2). -/
structure OwlClass where
  iri : String
  label : Option String := none
  subClassOf : List String := []
deriving DecidableEq, Repr

/-- Modelled from the spec: an OWL property (object or datatype property)
with its IRI, optional label and declared domain/range IRIs (spec section
4.1 step 3). -/
structure OwlProperty where
  iri : String
  label : Option String := none
  domains : List String := []
  ranges : List String := []
deriving DecidableEq, Repr

/-- Modelled from the spec: the in-memory graph the external RDF library
produces from a well-formed OWL file, abstracted to what the loader walks —
the enumerations of classes and of properties, in the store's iteration
order (spec section 4.1 steps 2-4). -/
structure Ontology where
  classes : List OwlClass
  properties : List OwlProperty
deriving DecidableEq, Repr

/-- The local name of an IRI: the text after the last `#` or `/`. -/
def localName (iri : String) : String :=
  String.mk ((iri.data.foldl
    (fun acc c => if c = '#' || c = '/' then [] else c :: acc) []).reverse)

/-- The best available human-readable label: the explicit label annotation
when one exists, otherwise the local name extracted from the IRI (spec
section 4.1 step 2). -/
def entityLabel (label : Option String) (iri : String) : String :=
  match label with
  | some l => l
  | none => localName iri

/-- Modelled from the spec: the document built for one OWL class — content
is the best available label; metadata captures the IRI, the fixed
`entity_type=class` tag, the declared superclasses and the ontology source
identifier (spec sections 3 and 4.1 step 2). -/
def buildClassDoc (cfg : OntologyLoader) (c : OwlClass) : Document :=
  { page_content := entityLabel c.label c.iri,
    metadata :=
      [("iri", c.iri), ("entity_type", "class"),
       ("subClassOf", String.intercalate " " c.subClassOf),
       ("source", cfg.source)] }

/-- Modelled from the spec: the document built for one OWL property —
analogous to the class document but tagged `entity_type=property`, with
domain/range IRIs (spec section 4.1 step 3). -/
def buildPropertyDoc (cfg : OntologyLoader) (p : OwlProperty) : Document :=
  { page_content := entityLabel p.label p.iri,
    metadata :=
      [("iri", p.iri), ("entity_type", "property"),
       ("domain", String.intercalate " " p.domains),
       ("range", String.intercalate " " p.ranges),
       ("source", cfg.source)] }

/-- Modelled from the spec: all documents built from a parsed graph — class
documents in enumeration order, then property documents (spec section 4.1
step 4). -/
def buildOntologyDocs (cfg : OntologyLoader) (g : Ontology) : List Document :=
  g.classes.map (buildClassDoc cfg) ++ g.properties.map (buildPropertyDoc cfg)

/-- Modelled from the spec: what one fetch+parse attempt of the configured
source can come back as — the source cannot be fetched, the content is not
valid RDF, or a parsed graph (spec sections 4.1 and 7). -/
inductive OntologySource where
  | unavailable (reason : String)
  | invalid (diagnostic : String)
  | graph (g : Ontology)
deriving DecidableEq, Repr

/-- Modelled from the spec: the `OntologyLoader` error taxonomy (spec
section 7). -/
inductive OntologyError where
  | SourceUnavailable (reason : String)
  | ParseError (diagnostic : String)
deriving DecidableEq, Repr

/-- Modelled from the spec: `OntologyLoader.load()` — a single fetch+parse
attempt, surfacing `SourceUnavailable`/`ParseError` immediately, and on a
parsed graph one document per class and one per property (spec section
4.1). -/
def OntologyLoader.load (cfg : OntologyLoader) :
    OntologySource → Except OntologyError (List Document)
  | OntologySource.unavailable r => Except.error (OntologyError.SourceUnavailable r)
  | OntologySource.invalid d => Except.error (OntologyError.ParseError d)
  | OntologySource.graph g => Except.ok (buildOntologyDocs cfg g)

/-! ## SparqlExamplesLoader -/

/-- Modelled from the spec: immutable per-instance configuration of
`SparqlExamplesLoader` — endpoint URL and optional named graph restricting
the examples (spec sections 3 and 6). -/
structure SparqlExamplesLoader where
  endpoint_url : String
  examples_graph : Option String := none
deriving DecidableEq, Repr

/-- Modelled from the spec: one result row of the loader's fixed retrieval
query — the example's stable identifier, the optional human-readable
comment, and the verbatim query text (spec section 4.2 step 1). -/
structure ResultRow where
  iri : String
  comment : Option String := none
  query : String
deriving DecidableEq, Repr

/-- Modelled from the spec: the `SparqlExamplesLoader` error taxonomy (spec
section 7). -/
inductive SparqlError where
  | EndpointUnreachable
  | QueryExecutionError (payload : String)
deriving DecidableEq, Repr

/-- Modelled from the spec: what the single request to the endpoint can come
back as — a network/timeout failure, an error or malformed response, or a
list of result rows (spec sections 4.2 and 7). -/
inductive EndpointState where
  | unreachable
  | malformed (payload : String)
  | ok (rows : List ResultRow)
deriving DecidableEq, Repr

/-- The rendered name of a query form.  The notebook in the repository
records the loader emitting `query_type = SelectQuery` for a SELECT example
(the external parser's name for the form), which fixes this rendering. -/
def typeName : QueryType → String
  | QueryType.select => "SelectQuery"
  | QueryType.ask => "AskQuery"
  | QueryType.construct => "ConstructQuery"
  | QueryType.describe => "DescribeQuery"

/-- Modelled from the spec: the generated description used as document
content when a row has no comment (spec section 4.2 step 3). -/
def genDescription (r : ResultRow) : String :=
  String.append "SPARQL example query " r.iri

/-- The content of the document for one row: the comment when present,
otherwise the generated description (spec section 4.2 step 3). -/
def rowContent (r : ResultRow) : String :=
  match r.comment with
  | some c => c
  | none => genDescription r

/-- Modelled from the spec and the notebook's recorded output: the document
built for one result row — content is the comment (or generated
description); metadata holds the comment (equal to the content), the
verbatim query text, the endpoint URL, the rendered query type and the
example's identifier. -/
def buildExampleDoc (cfg : SparqlExamplesLoader) (r : ResultRow)
    (qt : QueryType) : Document :=
  { page_content := rowContent r,
    metadata :=
      [("comment", rowContent r), ("query", r.query),
       ("endpoint_url", cfg.endpoint_url), ("query_type", typeName qt),
       ("_id", r.iri)] }

/-- Modelled from the spec: validate each row and build its document; a row
whose query text the external parser cannot interpret is rejected with
`QueryExecutionError` rather than propagated (spec section 9, first design
note). -/
def buildExampleDocs (cfg : SparqlExamplesLoader) :
    List ResultRow → Except SparqlError (List Document)
  | [] => Except.ok []
  | r :: rs =>
    match queryForm r.query with
    | none => Except.error (SparqlError.QueryExecutionError r.iri)
    | some qt =>
      (buildExampleDocs cfg rs).map (fun ds => buildExampleDoc cfg r qt :: ds)

/-- Modelled from the spec: `SparqlExamplesLoader.load()` — one request to
the endpoint, surfacing `EndpointUnreachable`/`QueryExecutionError`
immediately, and on a result set one document per row (spec section
4.2). -/
def SparqlExamplesLoader.load (cfg : SparqlExamplesLoader) :
    EndpointState → Except SparqlError (List Document)
  | EndpointState.unreachable => Except.error SparqlError.EndpointUnreachable
  | EndpointState.malformed p => Except.error (SparqlError.QueryExecutionError p)
  | EndpointState.ok rows => buildExampleDocs cfg rows

/-! ## Lazy production

The spec's design note on lazy generator semantics: eagerly fetch and fully
parse, then expose a restartable, finite iterator over the
already-materialized list. -/

/-- Modelled from the spec: a finite iterator over already-materialized
documents, yielding them one at a time (spec sections 4 and 9). -/
structure DocIterator where
  remaining : List Document
deriving DecidableEq, Repr

/-- Yield the next document, or `none` when the iterator is exhausted. -/
def DocIterator.next : DocIterator → Option (Document × DocIterator)
  | ⟨[]⟩ => none
  | ⟨d :: ds⟩ => some (d, ⟨ds⟩)

/-- Repeatedly take `next`, collecting the yielded documents; the fuel
bounds the number of steps (the iterator is finite, so the length of the
materialized list is enough). -/
def DocIterator.drainAux : Nat → DocIterator → List Document
  | 0, _ => []
  | Nat.succ n, it =>
    match DocIterator.next it with
    | none => []
    | some (d, it2) => d :: DocIterator.drainAux n it2

/-- The full sequence an iterator yields, obtained by repeatedly taking
`next` until exhaustion. -/
def DocIterator.drain (it : DocIterator) : List Document :=
  DocIterator.drainAux it.remaining.length it

/-- Modelled from the spec: `OntologyLoader.lazy_load()` — the fetch+parse
happens eagerly in full, then the built documents are exposed through a
one-at-a-time iterator (spec sections 4 and 9). -/
def OntologyLoader.lazyLoad (cfg : OntologyLoader) :
    OntologySource → Except OntologyError DocIterator
  | OntologySource.unavailable r => Except.error (OntologyError.SourceUnavailable r)
  | OntologySource.invalid d => Except.error (OntologyError.ParseError d)
  | OntologySource.graph g => Except.ok ⟨buildOntologyDocs cfg g⟩

/-- Modelled from the spec: `SparqlExamplesLoader.lazy_load()` — the single
endpoint request happens eagerly, then the built documents are exposed
through a one-at-a-time iterator (spec sections 4 and 9). -/
def SparqlExamplesLoader.lazyLoad (cfg : SparqlExamplesLoader) :
    EndpointState → Except SparqlError DocIterator
  | EndpointState.unreachable => Except.error SparqlError.EndpointUnreachable
  | EndpointState.malformed p => Except.error (SparqlError.QueryExecutionError p)
  | EndpointState.ok rows =>
    (buildExampleDocs cfg rows).map (fun ds => ⟨ds⟩)

/-! ## Per-call loader state

The spec says the per-instance configuration is read-only and that no
parsed graph is retained between calls; we model the loader's runtime state
explicitly — the configuration plus the slot a caching implementation would
use — and thread it through `load`. -/

/-- Modelled from the spec: the runtime state of an `OntologyLoader`
instance — the immutable configuration and the graph slot a caching layer
would fill; the spec mandates no such layer (spec sections 3 and 5). -/
structure OntologyLoaderState where
  config : OntologyLoader
  retained : Option Ontology := none
deriving DecidableEq, Repr

/-- Modelled from the spec: a stateful view of `OntologyLoader.load()` —
the result is computed from the configuration and this call's fetch alone,
and the instance state is returned untouched (spec sections 3 and 5). -/
def OntologyLoaderState.loadS (st : OntologyLoaderState) (src : OntologySource) :
    Except OntologyError (List Document) × OntologyLoaderState :=
  (st.config.load src, st)

/-- Modelled from the spec: the runtime state of a `SparqlExamplesLoader`
instance, analogous to `OntologyLoaderState`. -/
structure SparqlLoaderState where
  config : SparqlExamplesLoader
  retained : Option (List ResultRow) := none
deriving DecidableEq, Repr

/-- Modelled from the spec: a stateful view of
`SparqlExamplesLoader.load()` — the result is computed from the
configuration and this call's single request alone, and the instance state
is returned untouched (spec sections 3 and 5). -/
def SparqlLoaderState.loadS (st : SparqlLoaderState) (ep : EndpointState) :
    Except SparqlError (List Document) × SparqlLoaderState :=
  (st.config.load ep, st)

/-! ## Concrete sample inputs

Concrete configurations and source states used to evaluate the theorems.
The loader configurations are the ones the repository's README and notebook
construct; the graph and the result rows are small concrete instances. -/

/-- The `OntologyLoader` instance constructed in the README. -/
def sioLoader : OntologyLoader :=
  { source := "https://semanticscience.org/ontology/sio.owl", format := "xml" }

/-- A sample OWL class with an explicit label. -/
def personClass : OwlClass :=
  { iri := "http://example.org/onto#Person", label := some "Person" }

/-- A sample OWL property without a label, with a declared domain. -/
def hasNameProperty : OwlProperty :=
  { iri := "http://example.org/onto#hasName",
    domains := ["http://example.org/onto#Person"] }

/-- A sample parsed ontology with one class and one property. -/
def sampleOntology : Ontology :=
  { classes := [personClass], properties := [hasNameProperty] }

/-- The `SparqlExamplesLoader` instance constructed in the README and the
notebook. -/
def uniprotLoader : SparqlExamplesLoader :=
  { endpoint_url := "https://sparql.uniprot.org/sparql/" }

/-- A sample result row carrying a SELECT query and a comment (the comment
is the one recorded in the notebook's output). -/
def sampleSelectRow : ResultRow :=
  { iri := "http://example.org/examples/ex1",
    comment := some "Map UniProt to HGNC identifiers and Symbols",
    query := "SELECT * WHERE \x7b ?s ?p ?o \x7d" }

/-- A sample result row carrying a DESCRIBE query and no comment. -/
def sampleDescribeRow : ResultRow :=
  { iri := "http://example.org/examples/ex2",
    comment := none,
    query := "DESCRIBE <http://purl.uniprot.org/uniprot/P05067>" }

/-- A sample endpoint result set of two rows. -/
def sampleRows : List ResultRow := [sampleSelectRow, sampleDescribeRow]

/-- The documents the loader builds from `sampleRows`. -/
def sampleDocs : List Document :=
  [buildExampleDoc uniprotLoader sampleSelectRow QueryType.select,
   buildExampleDoc uniprotLoader sampleDescribeRow QueryType.describe]

/-! ## Helper lemmas -/

/-- A text the modelled parser accepts is not the empty string. -/
theorem queryForm_ne_empty {s : String} (h : (queryForm s).isSome) : s ≠ "" := by
  intro hs
  subst hs
  exact absurd h (by decide)

/-- The metadata of a class document carries the `entity_type=class` tag. -/
theorem classDoc_entity_type (cfg : OntologyLoader) (c : OwlClass) :
    List.lookup "entity_type" (buildClassDoc cfg c).metadata = some "class" := rfl

/-- The metadata of a class document carries the class IRI. -/
theorem classDoc_iri (cfg : OntologyLoader) (c : OwlClass) :
    List.lookup "iri" (buildClassDoc cfg c).metadata = some c.iri := rfl

/-- The content of a class document is the best available label. -/
theorem classDoc_content (cfg : OntologyLoader) (c : OwlClass) :
    (buildClassDoc cfg c).page_content = entityLabel c.label c.iri := rfl

/-- The metadata of a property document carries the `entity_type=property` tag. -/
theorem propertyDoc_entity_type (cfg : OntologyLoader) (p : OwlProperty) :
    List.lookup "entity_type" (buildPropertyDoc cfg p).metadata = some "property" := rfl

/-- The metadata of a property document carries the property IRI. -/
theorem propertyDoc_iri (cfg : OntologyLoader) (p : OwlProperty) :
    List.lookup "iri" (buildPropertyDoc cfg p).metadata = some p.iri := rfl

/-- The content of a property document is the best available label. -/
theorem propertyDoc_content (cfg : OntologyLoader) (p : OwlProperty) :
    (buildPropertyDoc cfg p).page_content = entityLabel p.label p.iri := rfl

/-- The label resolution is non-empty as soon as the explicit label is not
the empty literal and the IRI has a non-empty local name. -/
theorem entityLabel_ne_empty {label : Option String} {iri : String}
    (h1 : label ≠ some "") (h2 : localName iri ≠ "") :
    entityLabel label iri ≠ "" := by
  cases label with
  | none => simpa [entityLabel] using h2
  | some l =>
    intro hl
    exact h1 (by simpa [entityLabel] using congrArg some hl)

/-- The content of an example document is the resolved row content. -/
theorem exampleDoc_content (cfg : SparqlExamplesLoader) (r : ResultRow) (qt : QueryType) :
    (buildExampleDoc cfg r qt).page_content = rowContent r := rfl

/-- The metadata of an example document carries the comment field, equal to
the resolved row content. -/
theorem exampleDoc_comment (cfg : SparqlExamplesLoader) (r : ResultRow) (qt : QueryType) :
    List.lookup "comment" (buildExampleDoc cfg r qt).metadata = some (rowContent r) := rfl

/-- The metadata of an example document carries the verbatim query text. -/
theorem exampleDoc_query (cfg : SparqlExamplesLoader) (r : ResultRow) (qt : QueryType) :
    List.lookup "query" (buildExampleDoc cfg r qt).metadata = some r.query := rfl

/-- The metadata of an example document carries the endpoint URL. -/
theorem exampleDoc_endpoint (cfg : SparqlExamplesLoader) (r : ResultRow) (qt : QueryType) :
    List.lookup "endpoint_url" (buildExampleDoc cfg r qt).metadata =
      some cfg.endpoint_url := rfl

/-- The metadata of an example document carries the rendered query type. -/
theorem exampleDoc_query_type (cfg : SparqlExamplesLoader) (r : ResultRow) (qt : QueryType) :
    List.lookup "query_type" (buildExampleDoc cfg r qt).metadata =
      some (typeName qt) := rfl

/-- The metadata of an example document carries the row identifier. -/
theorem exampleDoc_id (cfg : SparqlExamplesLoader) (r : ResultRow) (qt : QueryType) :
    List.lookup "_id" (buildExampleDoc cfg r qt).metadata = some r.iri := rfl

/-- When every row's query text parses, the build step succeeds. -/
theorem buildExampleDocs_total {cfg : SparqlExamplesLoader} {rows : List ResultRow}
    (h : ∀ r ∈ rows, (queryForm r.query).isSome) :
    ∃ docs, buildExampleDocs cfg rows = Except.ok docs := by
  induction rows with
  | nil => exact ⟨[], rfl⟩
  | cons r rs ih =>
    obtain ⟨ds, hds⟩ := ih (fun x hx => h x (List.mem_cons_of_mem _ hx))
    obtain ⟨qt, hqt⟩ := Option.isSome_iff_exists.mp (h r (List.mem_cons_self r rs))
    exact ⟨buildExampleDoc cfg r qt :: ds,
      by simp [buildExampleDocs, hqt, hds, Except.map]⟩

/-- A successful build step produces one document per row, in order: the
`i`-th document is the document of the `i`-th row, built from the query
form the parser assigned to that row's query text. -/
theorem buildExampleDocs_get {cfg : SparqlExamplesLoader} {rows : List ResultRow}
    {docs : List Document} (h : buildExampleDocs cfg rows = Except.ok docs) :
    docs.length = rows.length ∧
    ∀ i : Nat, ∀ hi : i < rows.length, ∃ qt,
      queryForm (rows.get ⟨i, hi⟩).query = some qt ∧
      docs.get? i = some (buildExampleDoc cfg (rows.get ⟨i, hi⟩) qt) := by
  induction rows generalizing docs with
  | nil =>
    have hd : docs = [] := by
      simpa [buildExampleDocs] using h.symm
    subst hd
    exact ⟨rfl, fun i hi => absurd hi (by simp)⟩
  | cons r rs ih =>
    simp only [buildExampleDocs] at h
    cases hq : queryForm r.query with
    | none => rw [hq] at h; exact absurd h (by simp)
    | some qt =>
      rw [hq] at h
      cases hrec : buildExampleDocs cfg rs with
      | error e => rw [hrec] at h; exact absurd h (by simp [Except.map])
      | ok ds =>
        rw [hrec] at h
        have hd : docs = buildExampleDoc cfg r qt :: ds := by
          simpa [Except.map] using h.symm
        subst hd
        obtain ⟨hlen, hidx⟩ := ih hrec
        refine ⟨by simp [hlen], ?_⟩
        intro i hi
        cases i with
        | zero => exact ⟨qt, hq, rfl⟩
        | succ n =>
          obtain ⟨qt2, h1, h2⟩ := hidx n (by simpa using hi)
          exact ⟨qt2, h1, h2⟩

/-- Every document of a successful build step is the document of some row. -/
theorem buildExampleDocs_mem {cfg : SparqlExamplesLoader} {rows : List ResultRow}
    {docs : List Document} (h : buildExampleDocs cfg rows = Except.ok docs) :
    ∀ d ∈ docs, ∃ r, r ∈ rows ∧ ∃ qt,
      queryForm r.query = some qt ∧ d = buildExampleDoc cfg r qt := by
  induction rows generalizing docs with
  | nil =>
    have hd : docs = [] := by
      simpa [buildExampleDocs] using h.symm
    subst hd
    intro d hd
    exact absurd hd (by simp)
  | cons r rs ih =>
    simp only [buildExampleDocs] at h
    cases hq : queryForm r.query with
    | none => rw [hq] at h; exact absurd h (by simp)
    | some qt =>
      rw [hq] at h
      cases hrec : buildExampleDocs cfg rs with
      | error e => rw [hrec] at h; exact absurd h (by simp [Except.map])
      | ok ds =>
        rw [hrec] at h
        have hd : docs = buildExampleDoc cfg r qt :: ds := by
          simpa [Except.map] using h.symm
        subst hd
        intro d hdm
        cases List.mem_cons.mp hdm with
        | inl heq => exact ⟨r, List.mem_cons_self r rs, qt, hq, heq⟩
        | inr htl =>
          obtain ⟨x, hx, qt2, h1, h2⟩ := ih hrec d htl
          exact ⟨x, List.mem_cons_of_mem _ hx, qt2, h1, h2⟩

/-- The `_id` metadata entries of a successful build step are exactly the
row identifiers, in order. -/
theorem buildExampleDocs_ids {cfg : SparqlExamplesLoader} {rows : List ResultRow}
    {docs : List Document} (h : buildExampleDocs cfg rows = Except.ok docs) :
    docs.map (fun d => List.lookup "_id" d.metadata) =
      rows.map (fun r => some r.iri) := by
  induction rows generalizing docs with
  | nil =>
    have hd : docs = [] := by
      simpa [buildExampleDocs] using h.symm
    subst hd
    rfl
  | cons r rs ih =>
    simp only [buildExampleDocs] at h
    cases hq : queryForm r.query with
    | none => rw [hq] at h; exact absurd h (by simp)
    | some qt =>
      rw [hq] at h
      cases hrec : buildExampleDocs cfg rs with
      | error e => rw [hrec] at h; exact absurd h (by simp [Except.map])
      | ok ds =>
        rw [hrec] at h
        have hd : docs = buildExampleDoc cfg r qt :: ds := by
          simpa [Except.map] using h.symm
        subst hd
        simp [ih hrec, exampleDoc_id]

/-- Draining the iterator over a materialized list yields that list. -/
theorem DocIterator.drainAux_mk (ds : List Document) :
    DocIterator.drainAux ds.length ⟨ds⟩ = ds := by
  induction ds with
  | nil => rfl
  | cons d ds ih => simp [DocIterator.drainAux, DocIterator.next, ih]

/-- Draining an iterator yields exactly its materialized document list. -/
theorem DocIterator.drain_mk (ds : List Document) :
    DocIterator.drain ⟨ds⟩ = ds :=
  DocIterator.drainAux_mk ds

/-! ## Claims -/

/-- C1: for a well-formed OWL file with C distinct classes and P distinct
properties, `OntologyLoader.load()` returns exactly C + P documents; the
documents built from classes carry `entity_type=class` in their metadata and
the documents built from properties carry `entity_type=property`. -/
theorem ontology_load_count_and_tags
    (cfg : OntologyLoader) (g : Ontology) (docs : List Document)
    (hload : cfg.load (OntologySource.graph g) = Except.ok docs)
    (_hC : (g.classes.map OwlClass.iri).Nodup)
    (_hP : (g.properties.map OwlProperty.iri).Nodup) :
    docs.length = g.classes.length + g.properties.length ∧
    (∀ d ∈ docs.take g.classes.length,
        List.lookup "entity_type" d.metadata = some "class") ∧
    (∀ d ∈ docs.drop g.classes.length,
        List.lookup "entity_type" d.metadata = some "property") := by
  have hd : docs = buildOntologyDocs cfg g := by
    simpa [OntologyLoader.load] using hload.symm
  subst hd
  refine ⟨by simp [buildOntologyDocs], ?_, ?_⟩
  · intro d hdm
    have htake : (buildOntologyDocs cfg g).take g.classes.length
        = g.classes.map (buildClassDoc cfg) := by
      rw [buildOntologyDocs,
        show g.classes.length = (g.classes.map (buildClassDoc cfg)).length by simp]
      exact List.take_left _ _
    rw [htake] at hdm
    obtain ⟨c, _, rfl⟩ := List.mem_map.mp hdm
    exact classDoc_entity_type cfg c
  · intro d hdm
    have hdrop : (buildOntologyDocs cfg g).drop g.classes.length
        = g.properties.map (buildPropertyDoc cfg) := by
      rw [buildOntologyDocs,
        show g.classes.length = (g.classes.map (buildClassDoc cfg)).length by simp]
      exact List.drop_left _ _
    rw [hdrop] at hdm
    obtain ⟨p, _, rfl⟩ := List.mem_map.mp hdm
    exact propertyDoc_entity_type cfg p

/-- C1 witness: on a one-class/one-property ontology the hypotheses hold and
the theorem applies. -/
theorem ontology_load_count_and_tags_witness :
    (sioLoader.load (OntologySource.graph sampleOntology) =
        Except.ok (buildOntologyDocs sioLoader sampleOntology) ∧
      (sampleOntology.classes.map OwlClass.iri).Nodup ∧
      (sampleOntology.properties.map OwlProperty.iri).Nodup) ∧
    ((buildOntologyDocs sioLoader sampleOntology).length =
        sampleOntology.classes.length + sampleOntology.properties.length ∧
      (∀ d ∈ (buildOntologyDocs sioLoader sampleOntology).take
          sampleOntology.classes.length,
        List.lookup "entity_type" d.metadata = some "class") ∧
      (∀ d ∈ (buildOntologyDocs sioLoader sampleOntology).drop
          sampleOntology.classes.length,
        List.lookup "entity_type" d.metadata = some "property")) :=
  ⟨⟨rfl, by decide, by decide⟩,
   ontology_load_count_and_tags sioLoader sampleOntology _ rfl
     (by decide) (by decide)⟩

/-- C9: every document returned by `OntologyLoader.load()` has a non-empty
content string — the entity's explicit label when one exists, otherwise the
local name extracted from the IRI — and metadata containing the entity's
IRI.  (Non-emptiness requires the entity's label annotation, when present,
and the IRI's local name not to be the empty literal.) -/
theorem ontology_docs_content_and_iri
    (cfg : OntologyLoader) (g : Ontology) (docs : List Document)
    (hload : cfg.load (OntologySource.graph g) = Except.ok docs)
    (hc : ∀ c ∈ g.classes, c.label ≠ some "" ∧ localName c.iri ≠ "")
    (hp : ∀ p ∈ g.properties, p.label ≠ some "" ∧ localName p.iri ≠ "") :
    ∀ d ∈ docs, d.page_content ≠ "" ∧
      ((∃ c ∈ g.classes, d = buildClassDoc cfg c ∧
          d.page_content = entityLabel c.label c.iri ∧
          List.lookup "iri" d.metadata = some c.iri) ∨
       (∃ p ∈ g.properties, d = buildPropertyDoc cfg p ∧
          d.page_content = entityLabel p.label p.iri ∧
          List.lookup "iri" d.metadata = some p.iri)) := by
  have hd : docs = buildOntologyDocs cfg g := by
    simpa [OntologyLoader.load] using hload.symm
  subst hd
  intro d hdm
  rw [buildOntologyDocs] at hdm
  rcases List.mem_append.mp hdm with hcl | hpr
  · obtain ⟨c, hcm, rfl⟩ := List.mem_map.mp hcl
    obtain ⟨h1, h2⟩ := hc c hcm
    exact ⟨entityLabel_ne_empty h1 h2,
      Or.inl ⟨c, hcm, rfl, classDoc_content cfg c, classDoc_iri cfg c⟩⟩
  · obtain ⟨p, hpm, rfl⟩ := List.mem_map.mp hpr
    obtain ⟨h1, h2⟩ := hp p hpm
    exact ⟨entityLabel_ne_empty h1 h2,
      Or.inr ⟨p, hpm, rfl, propertyDoc_content cfg p, propertyDoc_iri cfg p⟩⟩

/-- C9 witness: on a one-class/one-property ontology the hypotheses hold and
the theorem applies. -/
theorem ontology_docs_content_and_iri_witness :
    (sioLoader.load (OntologySource.graph sampleOntology) =
        Except.ok (buildOntologyDocs sioLoader sampleOntology) ∧
      (∀ c ∈ sampleOntology.classes, c.label ≠ some "" ∧ localName c.iri ≠ "") ∧
      (∀ p ∈ sampleOntology.properties, p.label ≠ some "" ∧ localName p.iri ≠ "")) ∧
    (∀ d ∈ buildOntologyDocs sioLoader sampleOntology, d.page_content ≠ "" ∧
      ((∃ c ∈ sampleOntology.classes, d = buildClassDoc sioLoader c ∧
          d.page_content = entityLabel c.label c.iri ∧
          List.lookup "iri" d.metadata = some c.iri) ∨
       (∃ p ∈ sampleOntology.properties, d = buildPropertyDoc sioLoader p ∧
          d.page_content = entityLabel p.label p.iri ∧
          List.lookup "iri" d.metadata = some p.iri))) :=
  ⟨⟨rfl, by decide, by decide⟩,
   ontology_docs_content_and_iri sioLoader sampleOntology _ rfl
     (by decide) (by decide)⟩

/-- C5: a source that cannot be fetched surfaces as `SourceUnavailable` and
fetched-but-invalid RDF as `ParseError` from `OntologyLoader.load()`; an
unreachable endpoint surfaces as `EndpointUnreachable` and a malformed or
error response as `QueryExecutionError` from `SparqlExamplesLoader.load()`
— never a generic unhandled failure. -/
theorem loader_error_propagation :
    (∀ (cfg : OntologyLoader) (r : String),
        cfg.load (OntologySource.unavailable r) =
          Except.error (OntologyError.SourceUnavailable r)) ∧
    (∀ (cfg : OntologyLoader) (d : String),
        cfg.load (OntologySource.invalid d) =
          Except.error (OntologyError.ParseError d)) ∧
    (∀ cfg : SparqlExamplesLoader,
        cfg.load EndpointState.unreachable =
          Except.error SparqlError.EndpointUnreachable) ∧
    (∀ (cfg : SparqlExamplesLoader) (p : String),
        cfg.load (EndpointState.malformed p) =
          Except.error (SparqlError.QueryExecutionError p)) :=
  ⟨fun _ _ => rfl, fun _ _ => rfl, fun _ => rfl, fun _ _ => rfl⟩

/-- C6: for both loaders and every source state, draining the iterator
produced by `lazy_load()` yields exactly the documents (or the error) of
`load()`: the fetch happens eagerly in full, then the materialized
documents are yielded one at a time. -/
theorem lazy_load_equiv :
    (∀ (cfg : OntologyLoader) (src : OntologySource),
        (cfg.lazyLoad src).map DocIterator.drain = cfg.load src) ∧
    (∀ (cfg : SparqlExamplesLoader) (ep : EndpointState),
        (cfg.lazyLoad ep).map DocIterator.drain = cfg.load ep) := by
  constructor
  · intro cfg src
    cases src with
    | unavailable r => rfl
    | invalid d => rfl
    | graph g =>
      simp [OntologyLoader.lazyLoad, OntologyLoader.load, Except.map,
        DocIterator.drain_mk]
  · intro cfg ep
    cases ep with
    | unreachable => rfl
    | malformed p => rfl
    | ok rows =>
      cases h : buildExampleDocs cfg rows with
      | error e =>
        simp [SparqlExamplesLoader.lazyLoad, SparqlExamplesLoader.load, h,
          Except.map]
      | ok ds =>
        simp [SparqlExamplesLoader.lazyLoad, SparqlExamplesLoader.load, h,
          Except.map, DocIterator.drain_mk]

/-- C7: two `load()` calls against an unchanged source yield document lists
whose documents are identical, content and metadata field for field (in
this model the lists are equal outright, hence in particular permutations
of one another). -/
theorem load_idempotent :
    (∀ (cfg : OntologyLoader) (src : OntologySource) (d1 d2 : List Document),
        cfg.load src = Except.ok d1 → cfg.load src = Except.ok d2 →
        d1 = d2 ∧ d1.Perm d2) ∧
    (∀ (cfg : SparqlExamplesLoader) (ep : EndpointState) (d1 d2 : List Document),
        cfg.load ep = Except.ok d1 → cfg.load ep = Except.ok d2 →
        d1 = d2 ∧ d1.Perm d2) := by
  constructor
  · intro cfg src d1 d2 h1 h2
    have h := h1.symm.trans h2
    injection h with h
    subst h
    exact ⟨rfl, List.Perm.refl _⟩
  · intro cfg ep d1 d2 h1 h2
    have h := h1.symm.trans h2
    injection h with h
    subst h
    exact ⟨rfl, List.Perm.refl _⟩

/-- C7 witness: the theorem applies to two identical loads of the sample
ontology. -/
theorem load_idempotent_witness :
    sioLoader.load (OntologySource.graph sampleOntology) =
      Except.ok (buildOntologyDocs sioLoader sampleOntology) ∧
    (buildOntologyDocs sioLoader sampleOntology =
        buildOntologyDocs sioLoader sampleOntology ∧
      (buildOntologyDocs sioLoader sampleOntology).Perm
        (buildOntologyDocs sioLoader sampleOntology)) :=
  ⟨rfl, load_idempotent.1 sioLoader (OntologySource.graph sampleOntology)
    _ _ rfl rfl⟩

/-- C8: no `load()` invocation mutates the loader's state — the per-call
result is computed from the read-only configuration and this call's fetch
alone, the instance state (including the never-filled retained-graph slot)
is returned untouched, and a call after a previous call behaves exactly as
a fresh call on the same source. -/
theorem load_stateless :
    (∀ (st : OntologyLoaderState) (src : OntologySource),
        (st.loadS src).2 = st ∧ (st.loadS src).1 = st.config.load src) ∧
    (∀ (st : SparqlLoaderState) (ep : EndpointState),
        (st.loadS ep).2 = st ∧ (st.loadS ep).1 = st.config.load ep) ∧
    (∀ (st : OntologyLoaderState) (s1 s2 : OntologySource),
        ((st.loadS s1).2.loadS s2).1 = (st.loadS s2).1) ∧
    (∀ (st : SparqlLoaderState) (e1 e2 : EndpointState),
        ((st.loadS e1).2.loadS e2).1 = (st.loadS e2).1) :=
  ⟨fun _ _ => ⟨rfl, rfl⟩, fun _ _ => ⟨rfl, rfl⟩,
   fun _ _ _ => rfl, fun _ _ _ => rfl⟩

/-- C2: when the endpoint's response to the fixed retrieval query contains N
result rows (each carrying a query text the external parser accepts),
`SparqlExamplesLoader.load()` returns exactly N documents, and every
document's metadata has a `query` field holding a non-empty, parseable
SPARQL query string. -/
theorem sparql_load_count_and_query
    (cfg : SparqlExamplesLoader) (rows : List ResultRow)
    (hvalid : ∀ r ∈ rows, (queryForm r.query).isSome) :
    ∃ docs, cfg.load (EndpointState.ok rows) = Except.ok docs ∧
      docs.length = rows.length ∧
      ∀ d ∈ docs, ∃ q, List.lookup "query" d.metadata = some q ∧
        q ≠ "" ∧ (queryForm q).isSome := by
  obtain ⟨docs, hdocs⟩ := @buildExampleDocs_total cfg rows hvalid
  refine ⟨docs, hdocs, (buildExampleDocs_get hdocs).1, ?_⟩
  intro d hdm
  obtain ⟨r, _, qt, hq, rfl⟩ := buildExampleDocs_mem hdocs d hdm
  exact ⟨r.query, exampleDoc_query cfg r qt,
    queryForm_ne_empty (by simp [hq]), by simp [hq]⟩

/-- C2 witness: on a two-row result set with parseable queries the
hypothesis holds and the theorem applies. -/
theorem sparql_load_count_and_query_witness :
    (∀ r ∈ sampleRows, (queryForm r.query).isSome) ∧
    (∃ docs, uniprotLoader.load (EndpointState.ok sampleRows) = Except.ok docs ∧
      docs.length = sampleRows.length ∧
      ∀ d ∈ docs, ∃ q, List.lookup "query" d.metadata = some q ∧
        q ≠ "" ∧ (queryForm q).isSome) :=
  ⟨by decide, sparql_load_count_and_query uniprotLoader sampleRows (by decide)⟩

/-- C3: for every result row the loader builds exactly one document, in row
order: its content is the row's comment (or a generated description when
the comment is absent — that is `rowContent`), and its metadata carries the
configured endpoint URL, the verbatim query text, the query type and the
example's identifier, the identifiers being pairwise distinct when the rows
are. -/
theorem sparql_row_documents
    (cfg : SparqlExamplesLoader) (rows : List ResultRow) (docs : List Document)
    (hload : cfg.load (EndpointState.ok rows) = Except.ok docs)
    (hids : (rows.map ResultRow.iri).Nodup) :
    docs.length = rows.length ∧
    (∀ i : Nat, ∀ hi : i < rows.length, ∃ qt,
      queryForm (rows.get ⟨i, hi⟩).query = some qt ∧
      docs.get? i = some (buildExampleDoc cfg (rows.get ⟨i, hi⟩) qt) ∧
      (buildExampleDoc cfg (rows.get ⟨i, hi⟩) qt).page_content =
        rowContent (rows.get ⟨i, hi⟩) ∧
      List.lookup "endpoint_url"
          (buildExampleDoc cfg (rows.get ⟨i, hi⟩) qt).metadata =
        some cfg.endpoint_url ∧
      List.lookup "query" (buildExampleDoc cfg (rows.get ⟨i, hi⟩) qt).metadata =
        some (rows.get ⟨i, hi⟩).query ∧
      List.lookup "query_type"
          (buildExampleDoc cfg (rows.get ⟨i, hi⟩) qt).metadata =
        some (typeName qt) ∧
      List.lookup "_id" (buildExampleDoc cfg (rows.get ⟨i, hi⟩) qt).metadata =
        some (rows.get ⟨i, hi⟩).iri) ∧
    (docs.map (fun d => List.lookup "_id" d.metadata)).Nodup := by
  obtain ⟨hlen, hidx⟩ := buildExampleDocs_get hload
  refine ⟨hlen, ?_, ?_⟩
  · intro i hi
    obtain ⟨qt, h1, h2⟩ := hidx i hi
    exact ⟨qt, h1, h2, rfl, rfl, rfl, rfl, rfl⟩
  · rw [buildExampleDocs_ids hload,
      show rows.map (fun r => some r.iri) = (rows.map ResultRow.iri).map some
        by simp [List.map_map]]
    exact hids.map (Option.some_injective _)

/-- C3 witness: on the two-row sample result set the hypotheses hold and the
theorem applies. -/
theorem sparql_row_documents_witness :
    (uniprotLoader.load (EndpointState.ok sampleRows) = Except.ok sampleDocs ∧
      (sampleRows.map ResultRow.iri).Nodup) ∧
    (sampleDocs.length = sampleRows.length ∧
      (∀ i : Nat, ∀ hi : i < sampleRows.length, ∃ qt,
        queryForm (sampleRows.get ⟨i, hi⟩).query = some qt ∧
        sampleDocs.get? i =
          some (buildExampleDoc uniprotLoader (sampleRows.get ⟨i, hi⟩) qt) ∧
        (buildExampleDoc uniprotLoader (sampleRows.get ⟨i, hi⟩) qt).page_content =
          rowContent (sampleRows.get ⟨i, hi⟩) ∧
        List.lookup "endpoint_url"
            (buildExampleDoc uniprotLoader (sampleRows.get ⟨i, hi⟩) qt).metadata =
          some uniprotLoader.endpoint_url ∧
        List.lookup "query"
            (buildExampleDoc uniprotLoader (sampleRows.get ⟨i, hi⟩) qt).metadata =
          some (sampleRows.get ⟨i, hi⟩).query ∧
        List.lookup "query_type"
            (buildExampleDoc uniprotLoader (sampleRows.get ⟨i, hi⟩) qt).metadata =
          some (typeName qt) ∧
        List.lookup "_id"
            (buildExampleDoc uniprotLoader (sampleRows.get ⟨i, hi⟩) qt).metadata =
          some (sampleRows.get ⟨i, hi⟩).iri) ∧
      (sampleDocs.map (fun d => List.lookup "_id" d.metadata)).Nodup) :=
  ⟨⟨rfl, by decide⟩,
   sparql_row_documents uniprotLoader sampleRows sampleDocs rfl (by decide)⟩

/-- C4 (amended): the metadata `query_type` value of every document returned
by `SparqlExamplesLoader.load()` is the query's declared type rendered as
the external parser's name for the form — one of `SelectQuery`, `AskQuery`,
`ConstructQuery`, `DescribeQuery` — not the bare keyword. -/
theorem sparql_query_type_values
    (cfg : SparqlExamplesLoader) (rows : List ResultRow) (docs : List Document)
    (hload : cfg.load (EndpointState.ok rows) = Except.ok docs) :
    ∀ d ∈ docs,
      List.lookup "query_type" d.metadata = some "SelectQuery" ∨
      List.lookup "query_type" d.metadata = some "AskQuery" ∨
      List.lookup "query_type" d.metadata = some "ConstructQuery" ∨
      List.lookup "query_type" d.metadata = some "DescribeQuery" := by
  intro d hdm
  obtain ⟨r, _, qt, _, rfl⟩ := buildExampleDocs_mem hload d hdm
  rw [exampleDoc_query_type]
  cases qt with
  | select => exact Or.inl rfl
  | ask => exact Or.inr (Or.inl rfl)
  | construct => exact Or.inr (Or.inr (Or.inl rfl))
  | describe => exact Or.inr (Or.inr (Or.inr rfl))

/-- C4 witness: on the two-row sample result set the hypothesis holds and
the amended theorem applies. -/
theorem sparql_query_type_values_witness :
    uniprotLoader.load (EndpointState.ok sampleRows) = Except.ok sampleDocs ∧
    (∀ d ∈ sampleDocs,
      List.lookup "query_type" d.metadata = some "SelectQuery" ∨
      List.lookup "query_type" d.metadata = some "AskQuery" ∨
      List.lookup "query_type" d.metadata = some "ConstructQuery" ∨
      List.lookup "query_type" d.metadata = some "DescribeQuery") :=
  ⟨rfl, sparql_query_type_values uniprotLoader sampleRows sampleDocs rfl⟩

/-- C4 counterexample: the loader returns a document for a SELECT example
whose `query_type` metadata value is `SelectQuery` — as the repository's
notebook output records — which is none of the bare keywords SELECT, ASK,
CONSTRUCT, DESCRIBE the claim names. -/
theorem sparql_query_type_not_bare_form :
    uniprotLoader.load (EndpointState.ok [sampleSelectRow]) =
      Except.ok [buildExampleDoc uniprotLoader sampleSelectRow QueryType.select] ∧
    List.lookup "query_type"
        (buildExampleDoc uniprotLoader sampleSelectRow QueryType.select).metadata =
      some "SelectQuery" ∧
    ¬(some "SelectQuery" = (some "SELECT" : Option String) ∨
      some "SelectQuery" = (some "ASK" : Option String) ∨
      some "SelectQuery" = (some "CONSTRUCT" : Option String) ∨
      some "SelectQuery" = (some "DESCRIBE" : Option String)) :=
  ⟨rfl, rfl, by decide⟩

/-- C10: every document produced by `SparqlExamplesLoader.load()` carries a
`comment` metadata key whose value is identical to the document's content
string, as the repository's notebook output records. -/
theorem sparql_comment_equals_content
    (cfg : SparqlExamplesLoader) (rows : List ResultRow) (docs : List Document)
    (hload : cfg.load (EndpointState.ok rows) = Except.ok docs) :
    ∀ d ∈ docs, List.lookup "comment" d.metadata = some d.page_content := by
  intro d hdm
  obtain ⟨r, _, qt, _, rfl⟩ := buildExampleDocs_mem hload d hdm
  rw [exampleDoc_comment, exampleDoc_content]

/-- C10 witness: on the two-row sample result set the hypothesis holds and
the theorem applies. -/
theorem sparql_comment_equals_content_witness :
    uniprotLoader.load (EndpointState.ok sampleRows) = Except.ok sampleDocs ∧
    (∀ d ∈ sampleDocs,
      List.lookup "comment" d.metadata = some d.page_content) :=
  ⟨rfl, sparql_comment_equals_content uniprotLoader sampleRows sampleDocs rfl⟩

end LangchainRdf
